import Mathlib

/-!
Shallow embedding of the session core of the `six` web framework
(`src/core/six_sessions.h`, `src/core/six_login.h`) and proofs about it.

Modelling conventions:
* C++ `std::string` byte strings are modelled as `String` where only
  equality/lexicographic comparison matters, and as `List Nat` (bytes,
  each `< 256`) where the byte content matters (the encryption layer).
* C++ `std::string` `operator<`/`operator>` is byte-wise lexicographic
  comparison, modelled by `charsLt` on the character data.
* The OpenSSL EVP AES-256-CBC calls are an external library; they are
  modelled at their interface as CBC mode with PKCS#7 padding over an
  abstract 16-byte block cipher `E`/`D` (the fixed key is absorbed into
  `E`/`D`).  Argon2id (`argon2id_hash_raw`) is likewise abstract: a
  parameter `H : data → salt → digest`.
* `RAND_bytes`-backed generators (`generate_session_id`,
  `SaltGenerator::get_unique_salt`, refresh tokens) draw successive
  values from an explicit random stream `Rng` in the state.
* The sqlite collaborator (`six_sql.h`) is modelled at its contract:
  tables are lists of string-keyed rows, `six_sql_insert` appends,
  `six_sql_find_by` returns the first row matching a column value, and
  a row-handle mutation followed by `six_sql_commit` updates that row
  in place.
* `time(nullptr)` and the formatted `timestamp_now()` /
  `timestamp_plus_hours` / `timestamp_plus_days` values are supplied
  per call through a `Clock` record, mirroring that the source reads
  the system clock on each call.
* C++ exceptions (`throw runtime_error(...)`) become `Except String`
  results; operations that additionally mutate global state return the
  state alongside the `Except`, since a C++ throw does not roll back
  the already-performed mutations.
-/

namespace Six

/-! ## Byte-wise lexicographic string comparison (C++ `operator<`) -/

/-- Byte-wise lexicographic comparison of character lists, as performed by
`std::char_traits<char>::compare` for `std::string` `operator<`. -/
def charsLt : List Char → List Char → Bool
  | [], [] => false
  | [], _ :: _ => true
  | _ :: _, [] => false
  | a :: as, b :: bs =>
    if a.toNat < b.toNat then true
    else if b.toNat < a.toNat then false
    else charsLt as bs

/-- `strLt a b` models the C++ expression `a < b` (equivalently `b > a`)
on `std::string`. -/
def strLt (a b : String) : Bool := charsLt a.data b.data

/-! ## SessionEncryption (src/core/six_sessions.h lines 114-181)

`encrypt_session_data` runs EVP AES-256-CBC (fixed `MASTER_KEY` /
`MASTER_IV`) over the plaintext and hex-encodes the ciphertext;
`decrypt_session_data` hex-decodes and runs the inverse.  The AES block
permutation itself is external (OpenSSL), so the development is
parameterised by the 16-byte block cipher `E` and its inverse `D`; the
CBC chaining, the PKCS#7 padding applied by `EVP_EncryptFinal_ex` /
checked by `EVP_DecryptFinal_ex`, and the hex round-trip are modelled
concretely. -/

/-- Low hex digit character, as produced by `ss << hex << setw(2) << setfill('0')`. -/
def hexDigit (n : Nat) : Char :=
  if n < 10 then Char.ofNat ('0'.toNat + n) else Char.ofNat ('a'.toNat + n - 10)

/-- Two-character hex rendering of one byte. -/
def hexEncodeByte (b : Nat) : List Char := [hexDigit (b / 16), hexDigit (b % 16)]

/-- Hex rendering of a byte sequence (the `stringstream` loop of the source). -/
def hexEncode (bs : List Nat) : List Char := (bs.map hexEncodeByte).flatten

/-- Value of one hex character, as parsed by `strtol(..., nullptr, 16)`. -/
def hexVal (c : Char) : Nat :=
  if '0' ≤ c ∧ c ≤ '9' then c.toNat - '0'.toNat
  else if 'a' ≤ c ∧ c ≤ 'f' then c.toNat - 'a'.toNat + 10
  else if 'A' ≤ c ∧ c ≤ 'F' then c.toNat - 'A'.toNat + 10
  else 0

/-- Hex decoding loop of `decrypt_session_data` (`substr(i, 2)` pairs).
An odd-length input makes the source write one byte out of bounds, so the
model only consumes complete pairs; all inputs produced by
`encrypt_session_data` have even length. -/
def hexDecode : List Char → List Nat
  | c1 :: c2 :: rest => (hexVal c1 * 16 + hexVal c2) :: hexDecode rest
  | _ => []

/-- Pointwise XOR used by CBC chaining. -/
def xorBytes (a b : List Nat) : List Nat := List.zipWith (· ^^^ ·) a b

/-- PKCS#7 padding to the 16-byte AES block size, applied internally by
`EVP_EncryptFinal_ex`. -/
def pad16 (p : List Nat) : List Nat :=
  let k := 16 - p.length % 16
  p ++ List.replicate k k

/-- PKCS#7 unpadding with the validity check performed by
`EVP_DecryptFinal_ex`; the source ignores the EVP error code, and on an
invalid padding the model yields the empty byte string. -/
def unpad16 (q : List Nat) : List Nat :=
  let k := q.getLastD 0
  if 1 ≤ k ∧ k ≤ 16 ∧ k ≤ q.length ∧ (q.drop (q.length - k)).all (· = k)
  then q.take (q.length - k) else []

/-- CBC-mode encryption over the abstract block cipher `E`; the input must
already be padded to a multiple of 16 bytes. -/
def cbcEnc (E : List Nat → List Nat) (iv : List Nat) (q : List Nat) : List Nat :=
  if q = [] then []
  else
    let c := E (xorBytes iv (q.take 16))
    c ++ cbcEnc E c (q.drop 16)
termination_by q.length
decreasing_by
  simp only [List.length_drop]
  have : q.length ≠ 0 := by simpa [List.length_eq_zero] using (by assumption : ¬ q = [])
  omega

/-- CBC-mode decryption over the abstract inverse block cipher `D`. -/
def cbcDec (D : List Nat → List Nat) (iv : List Nat) (c : List Nat) : List Nat :=
  if c = [] then []
  else xorBytes iv (D (c.take 16)) ++ cbcDec D (c.take 16) (c.drop 16)
termination_by c.length
decreasing_by
  simp only [List.length_drop]
  have : c.length ≠ 0 := by simpa [List.length_eq_zero] using (by assumption : ¬ c = [])
  omega

/-- `SessionEncryption::MASTER_IV` (the fixed 16-byte IV `0x00 .. 0x0f`). -/
def MASTER_IV : List Nat := [0, 1, 2, 3, 4, 5, 6, 7, 8, 9, 10, 11, 12, 13, 14, 15]

/-- `SessionEncryption::encrypt_session_data`, parameterised by the keyed
AES-256 block permutation `E` (the fixed `MASTER_KEY` is absorbed into `E`).
The plaintext is a byte string; the result is the hex-encoded ciphertext. -/
def encrypt_session_data (E : List Nat → List Nat) (plaintext : List Nat) : String :=
  String.mk (hexEncode (cbcEnc E MASTER_IV (pad16 plaintext)))

/-- `SessionEncryption::decrypt_session_data`, parameterised by the inverse
block permutation `D`. -/
def decrypt_session_data (D : List Nat → List Nat) (ciphertext_hex : String) : List Nat :=
  unpad16 (cbcDec D MASTER_IV (hexDecode ciphertext_hex.data))

lemma hexVal_hexDigit {n : Nat} (h : n < 16) : hexVal (hexDigit n) = n := by
  have key : ∀ m : Fin 16, hexVal (hexDigit m.val) = m.val := by decide
  exact key ⟨n, h⟩

lemma hexDecode_hexEncode (bs : List Nat) (h : ∀ x ∈ bs, x < 256) :
    hexDecode (hexEncode bs) = bs := by
  induction bs with
  | nil => rfl
  | cons b bs ih =>
    have hb : b < 256 := h b (by simp)
    have h1 : hexVal (hexDigit (b / 16)) = b / 16 := hexVal_hexDigit (by omega)
    have h2 : hexVal (hexDigit (b % 16)) = b % 16 :=
      hexVal_hexDigit (Nat.mod_lt _ (by norm_num))
    have hstep : hexEncode (b :: bs) =
        hexDigit (b / 16) :: hexDigit (b % 16) :: hexEncode bs := rfl
    have hdec : ∀ c1 c2 rest, hexDecode (c1 :: c2 :: rest) =
        (hexVal c1 * 16 + hexVal c2) :: hexDecode rest := fun _ _ _ => rfl
    rw [hstep, hdec, h1, h2, show b / 16 * 16 + b % 16 = b by omega,
      ih fun x hx => h x (by simp [hx])]

lemma xorBytes_xorBytes (a : List Nat) : ∀ b : List Nat, a.length = b.length →
    xorBytes a (xorBytes a b) = b := by
  induction a with
  | nil =>
    intro b hb
    cases b with
    | nil => rfl
    | cons y b => simp at hb
  | cons x a ih =>
    intro b hb
    cases b with
    | nil => simp at hb
    | cons y b =>
      have hb' : a.length = b.length := by simpa using hb
      simp only [xorBytes, List.zipWith_cons_cons, List.cons.injEq]
      exact ⟨by rw [← Nat.xor_assoc, Nat.xor_self, Nat.zero_xor], ih b hb'⟩

lemma length_xorBytes (a b : List Nat) :
    (xorBytes a b).length = min a.length b.length := by
  simp [xorBytes]

lemma xorBytes_lt (a : List Nat) : ∀ b : List Nat, (∀ x ∈ a, x < 256) →
    (∀ x ∈ b, x < 256) → ∀ x ∈ xorBytes a b, x < 256 := by
  induction a with
  | nil => intro b _ _; simp [xorBytes]
  | cons p a ih =>
    intro b ha hb
    cases b with
    | nil => simp [xorBytes]
    | cons q b =>
      simp only [xorBytes, List.zipWith_cons_cons, List.mem_cons]
      rintro x (rfl | hx)
      · have hx8 : p ^^^ q < 2 ^ 8 :=
          Nat.xor_lt_two_pow (by simpa using ha p (by simp)) (by simpa using hb q (by simp))
        simpa using hx8
      · exact ih b (fun y hy => ha y (by simp [hy])) (fun y hy => hb y (by simp [hy])) x hx

lemma unpad16_pad16 (p : List Nat) : unpad16 (pad16 p) = p := by
  have hk1 : 1 ≤ 16 - p.length % 16 := by omega
  have hk16 : 16 - p.length % 16 ≤ 16 := by omega
  obtain ⟨m, hm⟩ := Nat.exists_eq_succ_of_ne_zero (by omega : 16 - p.length % 16 ≠ 0)
  have hpad : pad16 p =
      p ++ List.replicate (16 - p.length % 16) (16 - p.length % 16) := rfl
  generalize hkk : 16 - p.length % 16 = k at hk1 hk16 hm hpad
  have hlen : (pad16 p).length = p.length + k := by rw [hpad]; simp
  have hlast : (pad16 p).getLastD 0 = k := by
    rw [hpad, hm, List.replicate_succ', ← List.append_assoc]
    exact List.getLastD_concat _ _ _
  have hdrop : (pad16 p).drop p.length = List.replicate k k := by
    rw [hpad]; exact List.drop_left p _
  have htake : (pad16 p).take p.length = p := by
    rw [hpad]; exact List.take_left p _
  simp only [unpad16]
  rw [hlast, hlen]
  have hcond : 1 ≤ k ∧ k ≤ 16 ∧ k ≤ p.length + k ∧
      ((pad16 p).drop (p.length + k - k)).all (fun x => decide (x = k)) = true := by
    refine ⟨hk1, hk16, by omega, ?_⟩
    rw [show p.length + k - k = p.length by omega, hdrop]
    simp only [List.all_eq_true, decide_eq_true_eq]
    intro x hx
    exact List.eq_of_mem_replicate hx
  rw [if_pos hcond, show p.length + k - k = p.length by omega, htake]

lemma cbcDec_cbcEnc (E D : List Nat → List Nat)
    (hED : ∀ b, b.length = 16 → D (E b) = b)
    (hlen : ∀ b, b.length = 16 → (E b).length = 16) :
    ∀ n (q iv : List Nat), q.length ≤ n → iv.length = 16 → q.length % 16 = 0 →
      cbcDec D iv (cbcEnc E iv q) = q := by
  intro n
  induction n with
  | zero =>
    intro q iv hq _ _
    have : q = [] := by
      cases q with
      | nil => rfl
      | cons a l => simp at hq
    subst this
    rw [cbcEnc, cbcDec] <;> simp
  | succ n ih =>
    intro q iv hq hiv hmod
    by_cases hnil : q = []
    · subst hnil
      rw [cbcEnc, cbcDec] <;> simp
    · have hqlen : 16 ≤ q.length := by
        have : q.length ≠ 0 := by simpa [List.length_eq_zero] using hnil
        omega
      have htake16 : (q.take 16).length = 16 := by simp [List.length_take]; omega
      have hxlen : (xorBytes iv (q.take 16)).length = 16 := by
        rw [length_xorBytes, hiv, htake16]; exact min_self 16
      have hclen : (E (xorBytes iv (q.take 16))).length = 16 := hlen _ hxlen
      set c := E (xorBytes iv (q.take 16)) with hcdef
      rw [cbcEnc, if_neg hnil]
      have hcne : c ++ cbcEnc E c (q.drop 16) ≠ [] := by
        intro hco
        have := congrArg List.length hco
        simp [hclen] at this
      rw [cbcDec, if_neg hcne]
      have htkc : (c ++ cbcEnc E c (q.drop 16)).take 16 = c := by
        have := List.take_left c (cbcEnc E c (q.drop 16))
        rwa [hclen] at this
      have hdrc : (c ++ cbcEnc E c (q.drop 16)).drop 16 = cbcEnc E c (q.drop 16) := by
        have := List.drop_left c (cbcEnc E c (q.drop 16))
        rwa [hclen] at this
      rw [htkc, hdrc, hcdef, hED _ hxlen, xorBytes_xorBytes iv _ (by rw [htake16, hiv]),
        ← hcdef]
      have hrec : cbcDec D c (cbcEnc E c (q.drop 16)) = q.drop 16 := by
        refine ih (q.drop 16) c ?_ hclen ?_
        · simp only [List.length_drop]; omega
        · simp only [List.length_drop]; omega
      rw [hrec, List.take_append_drop]

lemma pad16_mod (p : List Nat) : (pad16 p).length % 16 = 0 := by
  simp only [pad16, List.length_append, List.length_replicate]
  omega

lemma pad16_lt (p : List Nat) (hp : ∀ x ∈ p, x < 256) : ∀ x ∈ pad16 p, x < 256 := by
  intro x hx
  rcases List.mem_append.1 hx with h | h
  · exact hp x h
  · have := List.eq_of_mem_replicate h
    omega

lemma cbcEnc_lt (E : List Nat → List Nat)
    (hbytes : ∀ b, b.length = 16 → (∀ x ∈ b, x < 256) → ∀ x ∈ E b, x < 256)
    (hlen : ∀ b, b.length = 16 → (E b).length = 16) :
    ∀ n (q iv : List Nat), q.length ≤ n → iv.length = 16 → (∀ x ∈ iv, x < 256) →
      q.length % 16 = 0 → (∀ x ∈ q, x < 256) →
      ∀ x ∈ cbcEnc E iv q, x < 256 := by
  intro n
  induction n with
  | zero =>
    intro q iv hq _ _ _ _
    have : q = [] := by
      cases q with
      | nil => rfl
      | cons a l => simp at hq
    subst this
    rw [cbcEnc]
    simp
  | succ n ih =>
    intro q iv hq hiv hivb hmod hqb
    by_cases hnil : q = []
    · subst hnil
      rw [cbcEnc]
      simp
    · have hqlen : 16 ≤ q.length := by
        have : q.length ≠ 0 := by simpa [List.length_eq_zero] using hnil
        omega
      have htake16 : (q.take 16).length = 16 := by simp [List.length_take]; omega
      have hxlen : (xorBytes iv (q.take 16)).length = 16 := by
        rw [length_xorBytes, hiv, htake16]; exact min_self 16
      have hxb : ∀ x ∈ xorBytes iv (q.take 16), x < 256 :=
        xorBytes_lt _ _ hivb (fun x hx => hqb x (List.mem_of_mem_take hx))
      have hcb : ∀ x ∈ E (xorBytes iv (q.take 16)), x < 256 := hbytes _ hxlen hxb
      have hclen : (E (xorBytes iv (q.take 16))).length = 16 := hlen _ hxlen
      rw [cbcEnc, if_neg hnil]
      intro x hx
      rcases List.mem_append.1 hx with h | h
      · exact hcb x h
      · refine ih (q.drop 16) _ ?_ hclen hcb ?_ (fun y hy => hqb y (List.mem_of_mem_drop hy)) x h
        · simp only [List.length_drop]; omega
        · simp only [List.length_drop]; omega

/-- C7: for every byte string `p` (bytes `< 256`), including the empty string
and strings containing embedded NUL bytes,
`decrypt_session_data (encrypt_session_data p) = p`, provided the abstract
AES-256 block permutation `E` used by the EVP layer is inverted by `D`,
maps 16-byte blocks to 16-byte blocks, and produces bytes. -/
theorem C7_encrypt_decrypt_roundtrip (E D : List Nat → List Nat)
    (hED : ∀ b, b.length = 16 → D (E b) = b)
    (hlen : ∀ b, b.length = 16 → (E b).length = 16)
    (hbytes : ∀ b, b.length = 16 → (∀ x ∈ b, x < 256) → ∀ x ∈ E b, x < 256)
    (p : List Nat) (hp : ∀ x ∈ p, x < 256) :
    decrypt_session_data D (encrypt_session_data E p) = p := by
  unfold encrypt_session_data decrypt_session_data
  have hdata : (String.mk (hexEncode (cbcEnc E MASTER_IV (pad16 p)))).data =
      hexEncode (cbcEnc E MASTER_IV (pad16 p)) := rfl
  rw [hdata, hexDecode_hexEncode _
    (cbcEnc_lt E hbytes hlen (pad16 p).length (pad16 p) MASTER_IV le_rfl (by decide)
      (by decide) (pad16_mod p) (pad16_lt p hp)),
    cbcDec_cbcEnc E D hED hlen (pad16 p).length (pad16 p) MASTER_IV le_rfl (by decide)
      (pad16_mod p)]
  exact unpad16_pad16 p

/-- Witness for C7: the round-trip evaluated with the identity block cipher on
a byte string containing a NUL byte, and on the empty byte string. -/
theorem C7_encrypt_decrypt_roundtrip_witness :
    decrypt_session_data (fun b => b) (encrypt_session_data (fun b => b) [0, 255, 10]) =
      [0, 255, 10] ∧
    decrypt_session_data (fun b => b) (encrypt_session_data (fun b => b) []) = [] :=
  ⟨C7_encrypt_decrypt_roundtrip _ _ (fun _ _ => rfl) (fun _ h => h) (fun _ _ hb => hb)
      [0, 255, 10] (by decide),
    C7_encrypt_decrypt_roundtrip _ _ (fun _ _ => rfl) (fun _ h => h) (fun _ _ hb => hb)
      [] (by decide)⟩

/-! ## Data model (src/core/six_sessions.h lines 57-112) -/

/-- `struct Session` with its C++ in-class default initialisers (a
default-constructed `Session`, and the `return {};` expressions in
`load_session`, have exactly these field values). -/
structure Session where
  session_id : String := ""
  session_id_hash : String := ""
  user_id : Int := 0
  data : String := "\x7b\x7d"
  created_at : String := ""
  updated_at : String := ""
  expires_at : String := ""
  last_activity : String := ""
  ip_address : String := ""
  user_agent : String := ""
  session_salt : String := ""
  refresh_token : String := ""
  refresh_token_hash : String := ""
  refresh_expires_at : String := ""
  «exists» : Bool := false
  is_valid : Bool := true
  created_ip : String := ""
  last_activity_ip : String := ""
deriving DecidableEq

/-- `struct SessionAuditLog` (the autoincrement `id` column is assigned by
the database and left uninitialised in the in-memory struct; it is omitted). -/
structure SessionAuditLog where
  session_id : String
  user_id : Int
  action : String
  ip_address : String
  user_agent : String
  timestamp : String
  details : String
deriving DecidableEq

/-! ## Storage collaborator (six_sql.h contract)

Rows are string-keyed association lists, mirroring the
`map<string,string>` rows handed to `six_sql_insert` and returned by
`six_sql_find_by`.  `six_sql_find_by` returns the first row whose column
matches; a mutation through the returned row handle followed by
`six_sql_commit` updates that row in place. -/

/-- A database row: association list from column name to string value. -/
abbrev Row := List (String × String)

/-- Value of a column in a row (empty string when absent), as
`row["col"]` reads an existing column. -/
def rowGet (r : Row) (k : String) : String :=
  ((r.find? fun p => p.1 == k).map Prod.snd).getD ""

/-- Whether a row has a given column at all. -/
def rowHas (r : Row) (k : String) : Bool :=
  (r.find? fun p => p.1 == k).isSome

/-- `row[k] = v`: replace the value of column `k`, or add the column. -/
def rowSet (r : Row) (k v : String) : Row :=
  if rowHas r k then r.map fun p => if p.1 == k then (k, v) else p
  else r ++ [(k, v)]

/-- The two durable tables the session core uses: `sessions` (keyed by
`session_id_hash`) and `session_audit_log` (append-only). -/
structure DB where
  sessions : List Row := []
  audit : List Row := []
deriving DecidableEq

/-- `six_sql_insert("sessions", row)`. -/
def insertSessionRow (db : DB) (r : Row) : DB :=
  { db with sessions := db.sessions ++ [r] }

/-- `six_sql_insert("session_audit_log", row)`. -/
def insertAuditRow (db : DB) (r : Row) : DB :=
  { db with audit := db.audit ++ [r] }

/-- `six_sql_find_by("sessions", "session_id_hash", h)`: the first row of
the `sessions` table whose `session_id_hash` column equals `h`. -/
def findSessionRow (db : DB) (h : String) : Option Row :=
  db.sessions.find? fun r => rowGet r "session_id_hash" == h

/-- Replace the first row satisfying `p` by its image under `f`. -/
def updateFirst (p : Row → Bool) (f : Row → Row) : List Row → List Row
  | [] => []
  | r :: rs => if p r then f r :: rs else r :: updateFirst p f rs

/-- Mutating the row handle returned by `six_sql_find_by("sessions",
"session_id_hash", h)` and calling `six_sql_commit()`. -/
def updateSessionRow (db : DB) (h : String) (f : Row → Row) : DB :=
  { db with sessions := updateFirst (fun r => rowGet r "session_id_hash" == h) f db.sessions }

/-! ## RateLimiter (src/core/six_sessions.h lines 218-272) -/

/-- `RateLimiter::RateLimitEntry` with its default initialisers (the value
`ip_attempts[ip]` default-constructs for an unseen IP). -/
structure RateLimitEntry where
  attempts : Int := 0
  reset_time : Int := 0
deriving DecidableEq

/-- The static `RateLimiter::ip_attempts` map. -/
abbrev RateTable := List (String × RateLimitEntry)

/-- `ip_attempts[ip]`, reading the entry (default-constructed if absent). -/
def rlFind (t : RateTable) (ip : String) : RateLimitEntry :=
  ((t.find? fun p => p.1 == ip).map Prod.snd).getD {}

/-- Store an entry under an IP (replacing any existing binding), the
effect of mutating `ip_attempts[ip]` in place. -/
def rlStore (t : RateTable) (ip : String) (e : RateLimitEntry) : RateTable :=
  if (t.find? fun p => p.1 == ip).isSome
  then t.map fun p => if p.1 == ip then (ip, e) else p
  else t ++ [(ip, e)]

/-- `RateLimiter::MAX_ATTEMPTS`. -/
def MAX_ATTEMPTS : Int := 5

/-- `RateLimiter::RESET_WINDOW` (seconds). -/
def RESET_WINDOW : Int := 60

/-- `RateLimiter::is_rate_limited(ip)` at wall-clock second `now`
(`time(nullptr)`).  It mutates the table: the entry is default-inserted
for an unseen IP and the window is reset when expired.  Returns the
verdict together with the updated table. -/
def is_rate_limited (now : Int) (ip_address : String) (t : RateTable) :
    Bool × RateTable :=
  let e := rlFind t ip_address
  let e := if now > e.reset_time then { attempts := 0, reset_time := now + RESET_WINDOW }
           else e
  (e.attempts ≥ MAX_ATTEMPTS, rlStore t ip_address e)

/-- `RateLimiter::record_failed_attempt(ip)` at wall-clock second `now`. -/
def record_failed_attempt (now : Int) (ip_address : String) (t : RateTable) : RateTable :=
  let e := rlFind t ip_address
  let e := if now > e.reset_time then { attempts := 0, reset_time := now + RESET_WINDOW }
           else e
  rlStore t ip_address { e with attempts := e.attempts + 1 }

/-- `RateLimiter::clear_failed_attempts(ip)`. -/
def clear_failed_attempts (ip_address : String) (t : RateTable) : RateTable :=
  let e := rlFind t ip_address
  rlStore t ip_address { e with attempts := 0 }

/-! ## Random stream and clock -/

/-- Explicit stream of values for the `RAND_bytes`-backed generators
(`generate_session_id`, `SaltGenerator::get_unique_salt`,
`generate_secure_random_bytes`).  Each call pops the next value; an
exhausted stream yields `""` (the source instead throws on entropy
failure, a case no claim exercises). -/
structure Rng where
  vals : List String := []
deriving DecidableEq

/-- Draw the next random value. -/
def Rng.next (g : Rng) : String × Rng :=
  match g.vals with
  | [] => ("", g)
  | v :: rest => (v, ⟨rest⟩)

/-- The wall clock as read during one operation: `time(nullptr)` as the
integer `tnow`, and the formatted timestamps `timestamp_now()`,
`timestamp_plus_hours(1)` and `timestamp_plus_days(30)`. -/
structure Clock where
  nowStr : String := ""
  plus1h : String := ""
  plus30d : String := ""
  tnow : Int := 0
deriving DecidableEq

/-! ## Global mutable state

The static `session_cache`, the sqlite-backed tables, the static
`RateLimiter::ip_attempts`, the `SessionAuditLogger::log_queue`, and the
entropy stream. -/

/-- The process-wide mutable state the session core reads and writes. -/
structure SessState where
  cache : List (String × Session) := []
  db : DB := {}
  rate : RateTable := []
  logQueue : List SessionAuditLog := []
  rng : Rng := {}
deriving DecidableEq

/-- `session_cache.count(id)` / `session_cache[id]` read access. -/
def cacheFind (c : List (String × Session)) (id : String) : Option Session :=
  (c.find? fun p => p.1 == id).map Prod.snd

/-- `session_cache[id] = s` (replace or insert). -/
def cacheStore (c : List (String × Session)) (id : String) (s : Session) :
    List (String × Session) :=
  if (c.find? fun p => p.1 == id).isSome
  then c.map fun p => if p.1 == id then (id, s) else p
  else c ++ [(id, s)]

/-- `session_cache.erase(id)`. -/
def cacheErase (c : List (String × Session)) (id : String) :
    List (String × Session) :=
  c.filter fun p => !(p.1 == id)

/-! ## SessionAuditLogger (src/core/six_sessions.h lines 274-335) -/

/-- The `map<string,string>` row built by
`SessionAuditLogger::write_audit_log_to_db` (note: the raw `session_id`
is one of its values). -/
def auditRow (l : SessionAuditLog) : Row :=
  [("session_id", l.session_id), ("user_id", toString l.user_id),
   ("action", l.action), ("ip_address", l.ip_address),
   ("user_agent", l.user_agent), ("timestamp", l.timestamp),
   ("details", l.details)]

/-- `SessionAuditLogger::log_session_event`: stamp the current UTC time,
push onto the in-memory queue, and insert a row into
`session_audit_log`. -/
def log_session_event (clock : Clock) (session_id : String) (user_id : Int)
    (action ip_address user_agent details : String) (st : SessState) : SessState :=
  let l : SessionAuditLog :=
    ⟨session_id, user_id, action, ip_address, user_agent, clock.nowStr, details⟩
  { st with logQueue := st.logQueue ++ [l], db := insertAuditRow st.db (auditRow l) }

/-- `SessionAuditLogger::detect_hijack_attempt(session_id, new_ip)`. -/
def detect_hijack_attempt (clock : Clock) (session_id new_ip : String)
    (st : SessState) : SessState :=
  log_session_event clock session_id 0 "hijack_attempt" new_ip ""
    "Session accessed from different IP" st

/-! ## Crypto parameters of the session layer -/

/-- The two external primitives the lifecycle operations call:
`SecureSessionHash::hash_with_salt` (Argon2id over `data` with the
hex-decoded `salt`) and `SessionEncryption::encrypt_session_data` /
`decrypt_session_data` at the `std::string` level. -/
structure Crypto where
  H : String → String → String
  Enc : String → String
  Dec : String → String

/-- `stoi` on the decimal strings this program writes into `user_id`
columns (the C++ `stoi` throws on non-numeric input; every row this
program writes stores `to_string(user_id)`, which parses back). -/
def stoi (s : String) : Int := s.toInt?.getD 0

/-! ## Session lifecycle operations (src/core/six_sessions.h lines 380-638) -/

/-- `create_session(user_id, ip_address, user_agent)`.  Throws (returns
`.error`) when the caller's IP is rate-limited; otherwise generates the
session id, salts, and refresh token from the random stream, inserts the
session into the cache, persists the durable row (keyed by
`session_id_hash`), emits a `create` audit event, and clears the IP's
failed-attempt counter.  The state is returned in both outcomes because
a C++ throw does not undo the table mutation done by `is_rate_limited`. -/
def create_session (C : Crypto) (clock : Clock) (user_id : Int)
    (ip_address user_agent : String) (st : SessState) :
    Except String Session × SessState :=
  let lim := is_rate_limited clock.tnow ip_address st.rate
  if lim.1 then
    (Except.error "Too many login attempts. Try again later.", { st with rate := lim.2 })
  else
    let (sid, g1) := st.rng.next
    let (salt, g2) := g1.next
    let (rtok, g3) := g2.next
    let (rsalt, g4) := g3.next
    let s : Session :=
      { session_id := sid
        session_salt := salt
        session_id_hash := C.H sid salt
        user_id := user_id
        data := "\x7b\x7d"
        created_at := clock.nowStr
        updated_at := clock.nowStr
        last_activity := clock.nowStr
        expires_at := clock.plus1h
        ip_address := ip_address
        user_agent := user_agent
        created_ip := ip_address
        last_activity_ip := ip_address
        refresh_token := rtok
        refresh_token_hash := C.H rtok rsalt
        refresh_expires_at := clock.plus30d
        «exists» := true
        is_valid := true }
    let row : Row :=
      [("session_id_hash", s.session_id_hash),
       ("session_salt", s.session_salt),
       ("user_id", toString user_id),
       ("data_encrypted", C.Enc s.data),
       ("created_at", s.created_at),
       ("updated_at", s.updated_at),
       ("expires_at", s.expires_at),
       ("ip_address", ip_address),
       ("user_agent", user_agent),
       ("created_ip", ip_address),
       ("last_activity", s.last_activity),
       ("last_activity_ip", ip_address),
       ("refresh_token_hash", s.refresh_token_hash),
       ("refresh_expires_at", s.refresh_expires_at),
       ("is_valid", "1")]
    let st1 : SessState :=
      { st with rate := lim.2, rng := g4,
                cache := cacheStore st.cache sid s,
                db := insertSessionRow st.db row }
    let st2 := log_session_event clock s.session_id user_id "create" ip_address
      user_agent "New session created" st1
    let st3 := { st2 with rate := clear_failed_attempts ip_address st2.rate }
    (Except.ok s, st3)

/-- `load_session(id, current_ip, current_user_agent)`.  Cache hit: hijack
binding checks (IP first, then user-agent), then expiry (`timestamp_now()
> expires_at`, byte-wise string comparison) with eviction.  Cache miss:
probe the durable store by a hash of `id` computed with a freshly
generated salt, rebuild the session from the row, re-check binding and
expiry, populate the cache and emit a `load` audit event. -/
def load_session (C : Crypto) (clock : Clock)
    (id current_ip current_user_agent : String) (st : SessState) :
    Session × SessState :=
  match cacheFind st.cache id with
  | some s =>
    if s.ip_address ≠ current_ip then
      (({} : Session), detect_hijack_attempt clock id current_ip st)
    else if s.user_agent ≠ current_user_agent then
      (({} : Session), detect_hijack_attempt clock id current_ip st)
    else if strLt s.expires_at clock.nowStr then
      (({} : Session), { st with cache := cacheErase st.cache id })
    else
      (s, st)
  | none =>
    let (session_salt, g1) := st.rng.next
    let session_hash := C.H id session_salt
    let st1 := { st with rng := g1 }
    match findSessionRow st1.db session_hash with
    | none => (({} : Session), st1)
    | some row =>
      let s : Session :=
        { session_id := id
          session_id_hash := rowGet row "session_id_hash"
          session_salt := rowGet row "session_salt"
          user_id := stoi (rowGet row "user_id")
          data := C.Dec (rowGet row "data_encrypted")
          created_at := rowGet row "created_at"
          updated_at := rowGet row "updated_at"
          expires_at := rowGet row "expires_at"
          ip_address := rowGet row "ip_address"
          user_agent := rowGet row "user_agent"
          created_ip := rowGet row "created_ip"
          last_activity := rowGet row "last_activity"
          last_activity_ip := rowGet row "last_activity_ip"
          refresh_token_hash := rowGet row "refresh_token_hash"
          refresh_expires_at := rowGet row "refresh_expires_at"
          is_valid := rowGet row "is_valid" == "1"
          «exists» := true }
      if s.ip_address ≠ current_ip ∨ s.user_agent ≠ current_user_agent then
        (({} : Session), detect_hijack_attempt clock id current_ip st1)
      else if strLt s.expires_at clock.nowStr then
        (({} : Session), st1)
      else
        let s := { s with last_activity := clock.nowStr, last_activity_ip := current_ip }
        let st2 := { st1 with cache := cacheStore st1.cache id s }
        (s, log_session_event clock id s.user_id "load" current_ip current_user_agent "" st2)

/-- `refresh_session(session_id, refresh_token, current_ip,
current_user_agent)`.  Loads the session (fail-closed), records a failed
attempt and throws on absence; hashes the presented refresh token with a
freshly generated salt and compares with the stored hash, recording a
failed attempt and throwing on mismatch; throws on refresh-token expiry;
otherwise mints a brand-new session via `create_session` (whose own
rate-limit throw propagates) and emits a `refresh` audit event. -/
def refresh_session (C : Crypto) (clock : Clock)
    (session_id refresh_token current_ip current_user_agent : String)
    (st : SessState) : Except String Session × SessState :=
  let (s, st1) := load_session C clock session_id current_ip current_user_agent st
  if s.«exists» = false then
    (Except.error "Invalid session",
      { st1 with rate := record_failed_attempt clock.tnow current_ip st1.rate })
  else
    let (refresh_salt, g1) := st1.rng.next
    let refresh_hash := C.H refresh_token refresh_salt
    let st2 := { st1 with rng := g1 }
    if refresh_hash ≠ s.refresh_token_hash then
      (Except.error "Invalid refresh token",
        { st2 with rate := record_failed_attempt clock.tnow current_ip st2.rate })
    else if strLt s.refresh_expires_at clock.nowStr then
      (Except.error "Refresh token expired", st2)
    else
      match create_session C clock s.user_id current_ip current_user_agent st2 with
      | (Except.error e, st3) => (Except.error e, st3)
      | (Except.ok ns, st3) =>
        (Except.ok ns, log_session_event clock session_id s.user_id "refresh"
          current_ip current_user_agent "Session refreshed with new ID" st3)

/-- `save_session(s)`: write-through the cache, then update the durable
row found by `session_id_hash` (user id, encrypted payload, timestamps,
validity) and commit; a missing durable row makes the durable part a
no-op. -/
def save_session (C : Crypto) (clock : Clock) (s : Session) (st : SessState) :
    SessState :=
  let st1 := { st with cache := cacheStore st.cache s.session_id s }
  match findSessionRow st1.db s.session_id_hash with
  | none => st1
  | some _ =>
    { st1 with db := updateSessionRow st1.db s.session_id_hash (fun r =>
        rowSet (rowSet (rowSet (rowSet (rowSet r
          "user_id" (toString s.user_id))
          "data_encrypted" (C.Enc s.data))
          "updated_at" clock.nowStr)
          "last_activity" clock.nowStr)
          "is_valid" (if s.is_valid then "1" else "0")) }

/-- `destroy_session(id)`: read the cached session (default-constructed
when absent), erase it from the cache, and if a durable row matches its
`session_id_hash`, mark that row invalid and emit a `logout` audit
event. -/
def destroy_session (clock : Clock) (id : String) (st : SessState) : SessState :=
  let s := (cacheFind st.cache id).getD {}
  let st1 := { st with cache := cacheErase st.cache id }
  match findSessionRow st1.db s.session_id_hash with
  | none => st1
  | some _ =>
    let st2 := { st1 with
      db := updateSessionRow st1.db s.session_id_hash (fun r => rowSet r "is_valid" "0") }
    log_session_event clock id s.user_id "logout" "" ""
      "Session destroyed - user logged out" st2

/-- `revoke_all_user_sessions(user_id, reason)`: drop every cached session
of the user, bulk-mark the user's durable rows invalid (the raw
`UPDATE sessions SET is_valid = 0 WHERE user_id = ...`), and emit one
`revoke_all` audit event. -/
def revoke_all_user_sessions (clock : Clock) (user_id : Int) (reason : String)
    (st : SessState) : SessState :=
  let st1 := { st with cache := st.cache.filter fun p => !(p.2.user_id == user_id) }
  let st2 := { st1 with db := { st1.db with sessions := st1.db.sessions.map (fun r =>
      if rowGet r "user_id" == toString user_id then rowSet r "is_valid" "0" else r) } }
  log_session_event clock "" user_id "revoke_all" "" ""
    ("All sessions revoked: " ++ reason) st2

/-! ## Authentication Gate guards (src/core/six_login.h lines 289-322) -/

/-- The response object the guards write to (`http_response`): status,
body and header map.  `g_current_response` may be null, hence guards take
an `Option http_response`. -/
structure http_response where
  status : Int := 200
  body : String := ""
  headers : List (String × String) := []
deriving DecidableEq

/-- `struct CurrentUser` (the fields the guards read). -/
structure CurrentUser where
  is_authenticated : Bool := false
  id : Int := 0
  data : List (String × String) := []
  session_id : String := ""
  ip_address : String := ""
  user_agent : String := ""
  refresh_token : String := ""
deriving DecidableEq

/-- `CurrentUser::get(key)`: the profile field, or `""` when absent. -/
def CurrentUser.get (cu : CurrentUser) (key : String) : String :=
  ((cu.data.find? fun p => p.1 == key).map Prod.snd).getD ""

/-- The `401 Unauthorized` JSON response the guards write. -/
def unauthorized (r : http_response) : http_response :=
  { r with status := 401, body := "\x7b\"error\": \"Unauthorized\"\x7d",
           headers := rowSet r.headers "Content-Type" "application/json" }

/-- The `403 Forbidden` JSON response `require_admin` writes. -/
def forbidden (r : http_response) : http_response :=
  { r with status := 403, body := "\x7b\"error\": \"Forbidden\"\x7d",
           headers := rowSet r.headers "Content-Type" "application/json" }

/-- `require_auth()`: guard against the process-wide `current_user`,
writing to `g_current_response` when it is non-null. -/
def require_auth (cu : CurrentUser) (resp : Option http_response) :
    Bool × Option http_response :=
  if !cu.is_authenticated then
    (false, resp.map unauthorized)
  else
    (true, resp)

/-- `require_admin()`: `401` when unauthenticated, `403` when the `role`
profile field is not `"admin"`, true only for an authenticated admin. -/
def require_admin (cu : CurrentUser) (resp : Option http_response) :
    Bool × Option http_response :=
  if !cu.is_authenticated then
    (false, resp.map unauthorized)
  else
    let role := cu.get "role"
    if role ≠ "admin" then
      (false, resp.map forbidden)
    else
      (true, resp)

/-! ## Helper lemmas on the association-list containers -/

lemma cacheFind_eq_none_iff (c : List (String × Session)) (id : String) :
    cacheFind c id = none ↔ ∀ p ∈ c, ¬ p.1 = id := by
  simp [cacheFind, List.find?_eq_none]

lemma cacheErase_of_none {c : List (String × Session)} {id : String}
    (h : cacheFind c id = none) : cacheErase c id = c := by
  rw [cacheFind_eq_none_iff] at h
  exact List.filter_eq_self.mpr fun p hp => by simpa using h p hp

lemma cacheFind_cacheErase (c : List (String × Session)) (id : String) :
    cacheFind (cacheErase c id) id = none := by
  rw [cacheFind_eq_none_iff]
  intro p hp
  have := List.of_mem_filter hp
  simpa using this

lemma find?_cons_false {α : Type} (f : α → Bool) (a : α) (l : List α)
    (h : f a = false) : List.find? f (a :: l) = List.find? f l :=
  List.find?_cons_of_neg l (by simp [h])

lemma find?_cons_true {α : Type} (f : α → Bool) (a : α) (l : List α)
    (h : f a = true) : List.find? f (a :: l) = some a :=
  List.find?_cons_of_pos l (by simp [h])

lemma find?_key_map (r : Row) (k v k' : String) (h : ¬ k = k') :
    List.find? (fun p => p.1 == k') (r.map fun p => if p.1 == k then (k, v) else p) =
      List.find? (fun p => p.1 == k') r := by
  rw [List.find?_map]
  have hfun : ((fun p : String × String => p.1 == k') ∘
      fun p => if p.1 == k then (k, v) else p) =
      fun p : String × String => p.1 == k' := by
    funext p
    by_cases hp : p.1 = k
    · simp [hp]
    · simp [hp]
  rw [hfun]
  rcases hf : List.find? (fun p : String × String => p.1 == k') r with _ | p
  · rfl
  · have hp1 : p.1 = k' := by simpa using List.find?_some hf
    have hpk : ¬ p.1 = k := fun hc => h ((hp1 ▸ hc).symm)
    simp [hpk]

lemma find?_key_append (r : Row) (k v k' : String) (h : ¬ k = k') :
    List.find? (fun p => p.1 == k') (r ++ [(k, v)]) =
      List.find? (fun p => p.1 == k') r := by
  induction r with
  | nil =>
    rw [List.nil_append, List.find?_nil,
      find?_cons_false (fun p : String × String => p.1 == k') (k, v) [] (by simpa using h),
      List.find?_nil]
  | cons p r ih =>
    rw [List.cons_append]
    cases hpk : (p.1 == k')
    · rw [find?_cons_false (fun q : String × String => q.1 == k') p (r ++ [(k, v)]) hpk,
        find?_cons_false (fun q : String × String => q.1 == k') p r hpk, ih]
    · rw [find?_cons_true (fun q : String × String => q.1 == k') p (r ++ [(k, v)]) hpk,
        find?_cons_true (fun q : String × String => q.1 == k') p r hpk]

lemma rowGet_rowSet_ne (r : Row) (k v k' : String) (h : ¬ k = k') :
    rowGet (rowSet r k v) k' = rowGet r k' := by
  unfold rowSet rowGet
  by_cases hk : rowHas r k
  · rw [if_pos hk, find?_key_map r k v k' h]
  · rw [if_neg hk, find?_key_append r k v k' h]

lemma rowHas_rowSet_ne (r : Row) (k v k' : String) (h : ¬ k = k') :
    rowHas (rowSet r k v) k' = rowHas r k' := by
  unfold rowSet
  by_cases hk : rowHas r k
  · rw [if_pos hk]
    unfold rowHas
    rw [find?_key_map r k v k' h]
  · rw [if_neg hk]
    unfold rowHas
    rw [find?_key_append r k v k' h]

lemma mem_updateFirst {p : Row → Bool} {f : Row → Row} {l : List Row} {r : Row}
    (h : r ∈ updateFirst p f l) : r ∈ l ∨ ∃ r₀ ∈ l, r = f r₀ := by
  induction l with
  | nil => simp [updateFirst] at h
  | cons x l ih =>
    unfold updateFirst at h
    by_cases hx : p x
    · rw [if_pos hx] at h
      rcases List.mem_cons.1 h with rfl | h
      · exact Or.inr ⟨x, by simp, rfl⟩
      · exact Or.inl (by simp [h])
    · rw [if_neg hx] at h
      rcases List.mem_cons.1 h with rfl | h
      · exact Or.inl (by simp)
      · rcases ih h with h | ⟨r₀, hr₀, hfr⟩
        · exact Or.inl (by simp [h])
        · exact Or.inr ⟨r₀, by simp [hr₀], hfr⟩

lemma rlFind_rlStore (t : RateTable) (ip : String) (e : RateLimitEntry) :
    rlFind (rlStore t ip e) ip = e := by
  unfold rlStore rlFind
  by_cases hs : (t.find? fun p => p.1 == ip).isSome
  · rw [if_pos hs, List.find?_map]
    have hfun : ((fun p : String × RateLimitEntry => p.1 == ip) ∘
        fun p => if p.1 == ip then (ip, e) else p) =
        fun p : String × RateLimitEntry => p.1 == ip := by
      funext p
      by_cases hp : p.1 = ip
      · simp [hp]
      · simp [hp]
    rw [hfun]
    rcases hf : List.find? (fun p : String × RateLimitEntry => p.1 == ip) t with _ | p
    · rw [hf] at hs
      simp at hs
    · have hp1 : p.1 = ip := by simpa using List.find?_some hf
      simp [hp1]
  · rw [if_neg hs]
    have hnone : List.find? (fun p : String × RateLimitEntry => p.1 == ip) t = none := by
      rcases hf : List.find? (fun p : String × RateLimitEntry => p.1 == ip) t with _ | p
      · rfl
      · rw [hf] at hs
        simp at hs
    have hall := List.find?_eq_none.mp hnone
    have happ : ∀ l : RateTable, (∀ x ∈ l, ¬ (x.1 == ip) = true) →
        List.find? (fun p : String × RateLimitEntry => p.1 == ip) (l ++ [(ip, e)]) =
          some (ip, e) := by
      intro l
      induction l with
      | nil =>
        intro _
        rw [List.nil_append,
          find?_cons_true (fun p : String × RateLimitEntry => p.1 == ip) (ip, e) []
            (by simp)]
      | cons p l ih =>
        intro hl
        rw [List.cons_append,
          find?_cons_false (fun q : String × RateLimitEntry => q.1 == ip) p
            (l ++ [(ip, e)]) (by simpa using hl p (by simp)),
          ih fun x hx => hl x (by simp [hx])]
    rw [happ t hall]
    rfl

/-- `load_session` never touches the rate-limiter table. -/
lemma load_session_rate (C : Crypto) (clock : Clock) (id ip ua : String)
    (st : SessState) : (load_session C clock id ip ua st).2.rate = st.rate := by
  unfold load_session detect_hijack_attempt log_session_event
  rcases hc : cacheFind st.cache id with _ | s
  · rcases hrng : st.rng.next with ⟨salt, g1⟩
    simp only [hrng]
    rcases hrow : findSessionRow st.db (C.H id salt) with _ | row
    · rfl
    · dsimp only
      split
      · rfl
      · split <;> rfl
  · dsimp only
    split
    · rfl
    · split
      · rfl
      · split <;> rfl

/-! ## Shared concrete fixtures for witnesses and counterexamples -/

/-- A concrete instantiation of the crypto primitives for evaluation:
`H` tags data with the salt (injective in the salt), `Enc`/`Dec` tag the
payload. -/
def Cfix : Crypto :=
  ⟨fun d s => d ++ ":" ++ s, fun p => "enc:" ++ p, fun c => "dec:" ++ c⟩

/-- A concrete wall clock. -/
def clockFix : Clock :=
  ⟨"2025-06-01 10:00:00", "2025-06-01 11:00:00", "2025-07-01 10:00:00", 100⟩

/-- A later concrete wall clock. -/
def clockFix2 : Clock :=
  ⟨"2025-06-01 10:30:00", "2025-06-01 11:30:00", "2025-07-01 10:30:00", 1900⟩

/-! ## C9 -/

/-- C9: `require_auth` returns true for an authenticated user and otherwise
sets the response to status 401 with a JSON error body and returns false;
`require_admin` 401s when unauthenticated, 403s with a JSON error body when
the authenticated user's `role` is not `"admin"`, and returns true only for
an authenticated admin. -/
theorem C9_guards (cu : CurrentUser) (r : http_response) :
    require_auth cu (some r) =
      (if cu.is_authenticated = true then (true, some r)
       else (false, some { r with
                           status := 401
                           body := "\x7b\"error\": \"Unauthorized\"\x7d"
                           headers := rowSet r.headers "Content-Type" "application/json" })) ∧
    require_admin cu (some r) =
      (if cu.is_authenticated = true then
        (if cu.get "role" = "admin" then (true, some r)
         else (false, some { r with
                             status := 403
                             body := "\x7b\"error\": \"Forbidden\"\x7d"
                             headers := rowSet r.headers "Content-Type" "application/json" }))
       else (false, some { r with
                           status := 401
                           body := "\x7b\"error\": \"Unauthorized\"\x7d"
                           headers := rowSet r.headers "Content-Type" "application/json" })) := by
  cases hcu : cu.is_authenticated <;>
    by_cases hrole : cu.get "role" = "admin" <;>
      simp [require_auth, require_admin, unauthorized, forbidden, hcu, hrole]

/-- A concrete cache-resident session bound to IP `1.1.1.1` and agent `"A"`. -/
def sHj : Session :=
  { session_id := "S"
    ip_address := "1.1.1.1"
    user_agent := "A"
    expires_at := "2030-01-01 00:00:00"
    «exists» := true }

/-- A state whose cache holds only `sHj` under its id. -/
def stHj : SessState := { cache := [("S", sHj)] }

/-- A cache hit with the recorded IP/user-agent and an unexpired session
returns the cached session and leaves the state unchanged. -/
lemma load_session_hit_ok (C : Crypto) (clock : Clock) (id : String)
    (st : SessState) (s : Session)
    (hc : cacheFind st.cache id = some s)
    (hnotexp : strLt s.expires_at clock.nowStr = false) :
    load_session C clock id s.ip_address s.user_agent st = (s, st) := by
  unfold load_session
  rw [hc]
  simp [hnotexp]

/-! ## C4 -/

/-- C4: for a cache-resident session, `load_session` with an IP or
user-agent differing from the recorded binding (including when both
differ) returns a session with `exists = false`, without throwing, and
appends exactly one `hijack_attempt` entry to the audit queue and exactly
one corresponding row to the durable audit table; nothing else changes. -/
theorem C4_hijack_fail_closed (C : Crypto) (clock : Clock)
    (id current_ip current_user_agent : String) (st : SessState) (s : Session)
    (hc : cacheFind st.cache id = some s)
    (hmismatch : s.ip_address ≠ current_ip ∨ s.user_agent ≠ current_user_agent) :
    (load_session C clock id current_ip current_user_agent st).1.«exists» = false ∧
    (load_session C clock id current_ip current_user_agent st).2 =
      { st with
        logQueue := st.logQueue ++ [⟨id, 0, "hijack_attempt", current_ip, "",
          clock.nowStr, "Session accessed from different IP"⟩]
        db := { st.db with audit := st.db.audit ++ [auditRow ⟨id, 0, "hijack_attempt",
          current_ip, "", clock.nowStr, "Session accessed from different IP"⟩] } } := by
  unfold load_session
  by_cases hip : s.ip_address ≠ current_ip
  · simp only [hc]
    rw [if_pos hip]
    exact ⟨rfl, rfl⟩
  · have hua : s.user_agent ≠ current_user_agent := hmismatch.resolve_left hip
    simp only [hc]
    rw [if_neg hip, if_pos hua]
    exact ⟨rfl, rfl⟩

/-- Witness for C4: a concrete cache-resident session loaded with both a
different IP and a different user-agent. -/
theorem C4_hijack_fail_closed_witness :
    (load_session Cfix clockFix "S" "9.9.9.9" "B" stHj).1.«exists» = false ∧
    (load_session Cfix clockFix "S" "9.9.9.9" "B" stHj).2 =
      { stHj with
        logQueue := [⟨"S", 0, "hijack_attempt", "9.9.9.9", "",
          clockFix.nowStr, "Session accessed from different IP"⟩]
        db := { audit := [auditRow ⟨"S", 0, "hijack_attempt", "9.9.9.9", "",
          clockFix.nowStr, "Session accessed from different IP"⟩] } } := by
  have h := C4_hijack_fail_closed Cfix clockFix "S" "9.9.9.9" "B" stHj sHj
    (by decide) (Or.inl (by decide))
  exact h

/-! ## C10 -/

/-- C10: a cache-hit binding mismatch (hijack) leaves the cache—and in
particular the cached session and all its fields—completely unchanged, so
a subsequent `load_session` with the originally recorded IP and
user-agent (before expiry) still returns the very same session with
`exists = true`. -/
theorem C10_hijack_frame (C : Crypto) (clock clock2 : Clock)
    (id current_ip current_user_agent : String) (st : SessState) (s : Session)
    (hc : cacheFind st.cache id = some s)
    (hmismatch : s.ip_address ≠ current_ip ∨ s.user_agent ≠ current_user_agent)
    (hexists : s.«exists» = true)
    (hnotexp : strLt s.expires_at clock2.nowStr = false) :
    (load_session C clock id current_ip current_user_agent st).2.cache = st.cache ∧
    (load_session C clock2 id s.ip_address s.user_agent
      (load_session C clock id current_ip current_user_agent st).2).1 = s ∧
    (load_session C clock2 id s.ip_address s.user_agent
      (load_session C clock id current_ip current_user_agent st).2).1.«exists» = true := by
  have hcache : (load_session C clock id current_ip current_user_agent st).2.cache =
      st.cache := by
    unfold load_session
    by_cases hip : s.ip_address ≠ current_ip
    · simp only [hc]
      rw [if_pos hip]
      rfl
    · have hua : s.user_agent ≠ current_user_agent := hmismatch.resolve_left hip
      simp only [hc]
      rw [if_neg hip, if_pos hua]
      rfl
  have hc2 : cacheFind
      (load_session C clock id current_ip current_user_agent st).2.cache id = some s := by
    rw [hcache]
    exact hc
  have h2 := load_session_hit_ok C clock2 id
    (load_session C clock id current_ip current_user_agent st).2 s hc2 hnotexp
  refine ⟨hcache, ?_, ?_⟩
  · rw [h2]
  · rw [h2]
    exact hexists

/-- Witness for C10: concrete hijacked load followed by a load with the
recorded binding. -/
theorem C10_hijack_frame_witness :
    (load_session Cfix clockFix "S" "9.9.9.9" "A" stHj).2.cache = stHj.cache ∧
    (load_session Cfix clockFix2 "S" sHj.ip_address sHj.user_agent
      (load_session Cfix clockFix "S" "9.9.9.9" "A" stHj).2).1 = sHj ∧
    (load_session Cfix clockFix2 "S" sHj.ip_address sHj.user_agent
      (load_session Cfix clockFix "S" "9.9.9.9" "A" stHj).2).1.«exists» = true :=
  C10_hijack_frame Cfix clockFix clockFix2 "S" "9.9.9.9" "A" stHj sHj
    (by decide) (Or.inl (by decide)) (by decide) (by decide)

/-! ## C5 -/

/-- An expired cache-resident session. -/
def sExp : Session :=
  { session_id := "S"
    ip_address := "1.1.1.1"
    user_agent := "A"
    expires_at := "2025-01-01 00:00:00"
    «exists» := true }

/-- A state whose cache holds only the expired session `sExp`. -/
def stExp : SessState := { cache := [("S", sExp)] }

/-- C5 counterexample: an expired cache-resident session loaded with a
different IP is rejected by the hijack check before the expiry check
ever runs, so `load_session` returns absent but the expired session is
NOT erased from the cache, contradicting the claim's unconditional
cache-hit eviction. -/
theorem C5_counterexample :
    cacheFind stExp.cache "S" = some sExp ∧
    strLt sExp.expires_at clockFix.nowStr = true ∧
    (load_session Cfix clockFix "S" "9.9.9.9" "A" stExp).1.«exists» = false ∧
    cacheFind (load_session Cfix clockFix "S" "9.9.9.9" "A" stExp).2.cache "S" =
      some sExp := by decide

/-- C5 amended: a session whose `expires_at` is strictly in the past is
never returned by `load_session` (`exists = false`): on the cache-hit
path through either the hijack branch or the expiry branch, and on the
cache-miss path when the durable probe finds its (expired) row, whether
or not the binding matches.  On the cache-hit path the expired session
is additionally erased from the cache when the presented IP and
user-agent match the recorded binding; a binding mismatch returns absent
via the hijack path, which runs first and leaves the cached entry in
place. -/
theorem C5_expired_absent (C : Crypto) (clock : Clock)
    (id current_ip current_user_agent : String) (st : SessState) (s : Session)
    (row : Row) :
    (cacheFind st.cache id = some s → strLt s.expires_at clock.nowStr = true →
      (load_session C clock id current_ip current_user_agent st).1.«exists» = false ∧
      (s.ip_address = current_ip → s.user_agent = current_user_agent →
        cacheFind (load_session C clock id current_ip current_user_agent st).2.cache id =
          none)) ∧
    (cacheFind st.cache id = none →
      findSessionRow st.db (C.H id (st.rng.next).1) = some row →
      strLt (rowGet row "expires_at") clock.nowStr = true →
      (load_session C clock id current_ip current_user_agent st).1.«exists» = false) := by
  constructor
  · intro hc hexp
    constructor
    · unfold load_session
      simp only [hc]
      by_cases hip : s.ip_address ≠ current_ip
      · rw [if_pos hip]
      · by_cases hua : s.user_agent ≠ current_user_agent
        · rw [if_neg hip, if_pos hua]
        · rw [if_neg hip, if_neg hua, if_pos hexp]
    · intro hip hua
      unfold load_session
      simp only [hc]
      rw [if_neg (by simp [hip]), if_neg (by simp [hua]), if_pos hexp]
      exact cacheFind_cacheErase st.cache id
  · intro hmiss hrow hexp
    rcases hrng : st.rng.next with ⟨salt, g1⟩
    rw [hrng] at hrow
    replace hrow : findSessionRow st.db (C.H id salt) = some row := hrow
    unfold load_session
    simp only [hmiss, hrng]
    rw [hrow]
    dsimp only
    by_cases hb : rowGet row "ip_address" ≠ current_ip ∨
        rowGet row "user_agent" ≠ current_user_agent
    · rw [if_pos hb]
    · rw [if_neg hb, if_pos hexp]

/-- One expired durable row, keyed by the hash `Cfix` computes for id
`"SID"` with the fresh salt `"RS1"`. -/
def expiredRow : Row :=
  [("session_id_hash", "SID:RS1"), ("session_salt", "SALT0"), ("user_id", "7"),
   ("expires_at", "2025-01-01 00:00:00"), ("ip_address", "1.1.1.1"),
   ("user_agent", "A")]

/-- A state with an empty cache, the expired durable row, and the fresh
probe salt `"RS1"` queued. -/
def stExpMiss : SessState := { db := { sessions := [expiredRow] }, rng := ⟨["RS1"]⟩ }

/-- Witness for C5 (amended): the expired cached session loaded with the
recorded binding is absent and evicted, and an expired session found on
the cache-miss durable path is likewise absent. -/
theorem C5_expired_absent_witness :
    (load_session Cfix clockFix "S" "1.1.1.1" "A" stExp).1.«exists» = false ∧
    cacheFind (load_session Cfix clockFix "S" "1.1.1.1" "A" stExp).2.cache "S" = none ∧
    (load_session Cfix clockFix "SID" "1.1.1.1" "A" stExpMiss).1.«exists» = false := by
  have h1 := (C5_expired_absent Cfix clockFix "S" "1.1.1.1" "A" stExp sExp []).1
    (by decide) (by decide)
  have h2 := (C5_expired_absent Cfix clockFix "SID" "1.1.1.1" "A" stExpMiss sExp
    expiredRow).2 (by decide) (by decide) (by decide)
  exact ⟨h1.1, h1.2 (by decide) (by decide), h2⟩

/-! ## C2 -/

/-- C2: on a cache miss, `load_session` computes the durable probe hash
from a freshly generated salt rather than the stored per-row salt; if the
fresh salt differs from every stored salt, every stored `session_id_hash`
was produced by `hash_with_salt` from its stored `session_salt`, and
`hash_with_salt` yields different digests for different salts, then the
durable lookup finds no row and `load_session` returns the absent default
session (`exists = false`). -/
theorem C2_cache_miss_fresh_salt (C : Crypto) (clock : Clock)
    (id current_ip current_user_agent : String) (st : SessState)
    (hmiss : cacheFind st.cache id = none)
    (hfresh : ∀ r ∈ st.db.sessions, rowGet r "session_salt" ≠ (st.rng.next).1)
    (hrows : ∀ r ∈ st.db.sessions, ∃ d,
      rowGet r "session_id_hash" = C.H d (rowGet r "session_salt"))
    (hH : ∀ d₁ d₂ s₁ s₂, s₁ ≠ s₂ → C.H d₁ s₁ ≠ C.H d₂ s₂) :
    findSessionRow st.db (C.H id (st.rng.next).1) = none ∧
    (load_session C clock id current_ip current_user_agent st).1 = ({} : Session) ∧
    (load_session C clock id current_ip current_user_agent st).1.«exists» = false := by
  rcases hrng : st.rng.next with ⟨salt, g1⟩
  rw [hrng] at hfresh
  have hfind : findSessionRow st.db (C.H id salt) = none := by
    unfold findSessionRow
    rw [List.find?_eq_none]
    intro r hr
    obtain ⟨d, hd⟩ := hrows r hr
    simp only [hd, beq_iff_eq]
    exact hH d id (rowGet r "session_salt") salt (hfresh r hr)
  refine ⟨hfind, ?_, ?_⟩ <;>
  · unfold load_session
    simp only [hmiss, hrng]
    rw [hfind]

/-- A crypto instantiation whose hash is the salt itself: digests differ
whenever salts differ. -/
def CH2 : Crypto := ⟨fun _ s => s, fun p => p, fun c => c⟩

/-- A state with an empty cache, one durable row whose hash was computed
(under `CH2`) from its stored salt, and a fresh probe salt differing from
the stored one. -/
def stC2 : SessState :=
  { db := { sessions := [[("session_id_hash", "SALTX"), ("session_salt", "SALTX")]] }
    rng := ⟨["SALTY"]⟩ }

/-- Witness for C2: the concrete cache-miss probe finds no row. -/
theorem C2_cache_miss_fresh_salt_witness :
    findSessionRow stC2.db (CH2.H "SID" (stC2.rng.next).1) = none ∧
    (load_session CH2 clockFix "SID" "1.1.1.1" "A" stC2).1 = ({} : Session) ∧
    (load_session CH2 clockFix "SID" "1.1.1.1" "A" stC2).1.«exists» = false := by
  have h := C2_cache_miss_fresh_salt CH2 clockFix "SID" "1.1.1.1" "A" stC2
    (by decide) (by decide)
    (by
      intro r hr
      rw [show stC2.db.sessions =
        [[("session_id_hash", "SALTX"), ("session_salt", "SALTX")]] from rfl,
        List.mem_singleton] at hr
      subst hr
      exact ⟨"", rfl⟩)
    (fun d₁ d₂ s₁ s₂ hne => hne)
  exact h

/-! ## C8 -/

/-- Destroying an id that is not cached, in a database where no row has an
empty `session_id_hash`, changes nothing at all (no cache change, no
durable change, no audit event, no throw). -/
lemma destroy_session_noop (clock : Clock) (id : String) (st : SessState)
    (hmiss : cacheFind st.cache id = none)
    (hdb : ∀ r ∈ st.db.sessions, ¬ rowGet r "session_id_hash" = "") :
    destroy_session clock id st = st := by
  have hfind : findSessionRow st.db (({} : Session).session_id_hash) = none := by
    unfold findSessionRow
    rw [List.find?_eq_none]
    intro r hr
    simp only [beq_iff_eq]
    exact hdb r hr
  unfold destroy_session
  simp only [hmiss, Option.getD_none]
  rw [hfind, cacheErase_of_none hmiss]

/-- After `destroy_session`, the destroyed id is no longer cached. -/
lemma destroy_session_cache (clock : Clock) (id : String) (st : SessState) :
    (destroy_session clock id st).cache = cacheErase st.cache id := by
  unfold destroy_session log_session_event
  dsimp only
  split
  · rfl
  · rfl

/-- `destroy_session` preserves non-emptiness of the stored hashes: its
only durable-row mutation sets `is_valid`. -/
lemma destroy_session_db_pres (clock : Clock) (id : String) (st : SessState)
    (hdb : ∀ r ∈ st.db.sessions, ¬ rowGet r "session_id_hash" = "") :
    ∀ r ∈ (destroy_session clock id st).db.sessions,
      ¬ rowGet r "session_id_hash" = "" := by
  unfold destroy_session log_session_event
  dsimp only
  split
  · exact hdb
  · intro r hr
    rcases mem_updateFirst hr with h | ⟨r₀, hr₀, rfl⟩
    · exact hdb r h
    · rw [rowGet_rowSet_ne r₀ "is_valid" "0" "session_id_hash" (by decide)]
      exact hdb r₀ hr₀

/-- C8: `destroy_session` is idempotent and destroying an unknown id is a
silent no-op: for an id absent from the cache (and a database whose rows
all carry a real, non-empty `session_id_hash`), `destroy_session` leaves
the entire state—cache, durable storage, audit queue—unchanged; and a
second `destroy_session` of any id has no further effect. -/
theorem C8_destroy_idempotent (clock clock2 : Clock) (id : String) (st : SessState)
    (hdb : ∀ r ∈ st.db.sessions, ¬ rowGet r "session_id_hash" = "") :
    (cacheFind st.cache id = none → destroy_session clock id st = st) ∧
    destroy_session clock2 id (destroy_session clock id st) =
      destroy_session clock id st := by
  refine ⟨fun hmiss => destroy_session_noop clock id st hmiss hdb, ?_⟩
  apply destroy_session_noop
  · rw [destroy_session_cache]
    exact cacheFind_cacheErase st.cache id
  · exact destroy_session_db_pres clock id st hdb

/-- A state with one cached session (hash `"H1"`) and its durable row. -/
def stDes : SessState :=
  { cache := [("S", { sHj with session_id_hash := "H1" })]
    db := { sessions := [[("session_id_hash", "H1"), ("is_valid", "1")]] } }

/-- Witness for C8: destroying an unknown id on a concrete state is a
no-op, and destroying the same id twice equals destroying it once. -/
theorem C8_destroy_idempotent_witness :
    destroy_session clockFix "unknown" stDes = stDes ∧
    destroy_session clockFix2 "S" (destroy_session clockFix "S" stDes) =
      destroy_session clockFix "S" stDes := by
  have h1 := C8_destroy_idempotent clockFix clockFix2 "unknown" stDes (by decide)
  have h2 := C8_destroy_idempotent clockFix clockFix2 "S" stDes (by decide)
  exact ⟨h1.1 (by decide), h2.2⟩

/-! ## C6 -/

/-- A sequence of `record_failed_attempt(ip)` calls at the given
wall-clock times. -/
def record_failed_attempts_at (ip : String) (ts : List Int) (t : RateTable) : RateTable :=
  ts.foldl (fun acc tm => record_failed_attempt tm ip acc) t

lemma rlFind_of_none (t : RateTable) (ip : String)
    (h : (t.find? fun p => p.1 == ip) = none) : rlFind t ip = {} := by
  unfold rlFind
  rw [h]
  rfl

lemma fold_records (ip : String) (rest : List Int) :
    ∀ (t : RateTable) (k rt : Int), rlFind t ip = ⟨k, rt⟩ →
      (∀ tm ∈ rest, tm ≤ rt) →
      rlFind (record_failed_attempts_at ip rest t) ip = ⟨k + rest.length, rt⟩ := by
  induction rest with
  | nil =>
    intro t k rt hfind _
    simpa using hfind
  | cons tm rest ih =>
    intro t k rt hfind hall
    have hle : ¬ tm > rt := by
      have := hall tm (by simp)
      omega
    have hstep : record_failed_attempt tm ip t = rlStore t ip ⟨k + 1, rt⟩ := by
      simp only [record_failed_attempt, hfind]
      rw [if_neg hle]
    unfold record_failed_attempts_at
    rw [List.foldl_cons, hstep]
    have hrec := ih (rlStore t ip ⟨k + 1, rt⟩) (k + 1) rt (rlFind_rlStore t ip ⟨k + 1, rt⟩)
      (fun x hx => hall x (by simp [hx]))
    unfold record_failed_attempts_at at hrec
    rw [hrec]
    have : k + 1 + (rest.length : Int) = k + ((tm :: rest).length : Int) := by
      simp only [List.length_cons]
      push_cast
      ring
    rw [this]

/-- C6: starting from an IP the limiter has never seen, `n`
`record_failed_attempt(ip)` calls whose first happens at `t1 > 0` and all
of which fall inside the 60-second window `[t1, t1 + 60]` leave the
entry at `⟨n, t1 + 60⟩`; `is_rate_limited(ip)` queried inside the window
then returns true exactly when the attempt counter has reached 5 (so
true after exactly 5 such calls, false for fewer), and once the window
has elapsed (`tq > t1 + 60`) it returns false again and resets the
counter to zero. -/
theorem C6_rate_limiter (ip : String) (t : RateTable) (t1 tq : Int) (rest : List Int)
    (h0 : (t.find? fun p => p.1 == ip) = none)
    (ht1 : 0 < t1)
    (hall : ∀ tm ∈ rest, tm ≤ t1 + 60) :
    rlFind (record_failed_attempts_at ip (t1 :: rest) t) ip =
      ⟨1 + rest.length, t1 + 60⟩ ∧
    (tq ≤ t1 + 60 →
      (is_rate_limited tq ip (record_failed_attempts_at ip (t1 :: rest) t)).1 =
        decide ((5 : Int) ≤ 1 + rest.length)) ∧
    (t1 + 60 < tq →
      (is_rate_limited tq ip (record_failed_attempts_at ip (t1 :: rest) t)).1 = false ∧
      rlFind (is_rate_limited tq ip (record_failed_attempts_at ip (t1 :: rest) t)).2 ip =
        ⟨0, tq + 60⟩) := by
  have hstep1 : record_failed_attempt t1 ip t = rlStore t ip ⟨0 + 1, t1 + 60⟩ := by
    simp only [record_failed_attempt, rlFind_of_none t ip h0]
    rw [if_pos (by exact ht1)]
    rfl
  have hfindN : rlFind (record_failed_attempts_at ip (t1 :: rest) t) ip =
      ⟨1 + rest.length, t1 + 60⟩ := by
    unfold record_failed_attempts_at
    rw [List.foldl_cons, hstep1]
    have hrec := fold_records ip rest (rlStore t ip ⟨0 + 1, t1 + 60⟩) (0 + 1) (t1 + 60)
      (rlFind_rlStore t ip ⟨0 + 1, t1 + 60⟩) hall
    unfold record_failed_attempts_at at hrec
    rw [hrec]
    norm_num
  refine ⟨hfindN, ?_, ?_⟩
  · intro hin
    simp only [is_rate_limited, hfindN]
    rw [if_neg (show ¬ tq > t1 + 60 by omega)]
    rfl
  · intro hout
    simp only [is_rate_limited, hfindN]
    rw [if_pos (show tq > t1 + 60 by omega)]
    exact ⟨rfl, rlFind_rlStore _ ip _⟩

/-- Witness for C6: five failed attempts from a fresh IP inside one
minute trip the limiter at the window edge; a query one second after the
window does not.  (The second part reuses the theorem at a later query
time.) -/
theorem C6_rate_limiter_witness :
    (is_rate_limited 160 "203.0.113.5"
      (record_failed_attempts_at "203.0.113.5" [100, 110, 120, 130, 140] [])).1 = true ∧
    (is_rate_limited 161 "203.0.113.5"
      (record_failed_attempts_at "203.0.113.5" [100, 110, 120, 130, 140] [])).1 = false := by
  have h1 := C6_rate_limiter "203.0.113.5" [] 100 160 [110, 120, 130, 140]
    (by decide) (by decide) (by decide)
  have h2 := C6_rate_limiter "203.0.113.5" [] 100 161 [110, 120, 130, 140]
    (by decide) (by decide) (by decide)
  constructor
  · have := h1.2.1 (by decide)
    simpa using this
  · exact (h2.2.2 (by decide)).1

/-! ## C1 -/

/-- No row of the durable `sessions` table carries a raw `session_id`
column. -/
def noRawIdColumn (db : DB) : Prop :=
  ∀ r ∈ db.sessions, rowHas r "session_id" = false

lemma find?_isSome_any {α : Type} (l : List α) (p : α → Bool) :
    (l.find? p).isSome = l.any p := by
  induction l with
  | nil => rfl
  | cons a l ih =>
    cases hpa : p a
    · rw [List.find?_cons_of_neg _ (by simp [hpa]), List.any_cons, hpa, Bool.false_or, ih]
    · rw [List.find?_cons_of_pos _ hpa, List.any_cons, hpa, Bool.true_or]
      rfl

lemma rowHas_eq_any (r : Row) (k : String) :
    rowHas r k = r.any fun p => p.1 == k := by
  unfold rowHas
  exact find?_isSome_any r _

/-- Updating one `sessions` row with a column-preserving function keeps
the table free of raw `session_id` columns. -/
lemma noRawIdColumn_update (db : DB) (h : String) (f : Row → Row)
    (hf : ∀ r, rowHas r "session_id" = false → rowHas (f r) "session_id" = false)
    (h0 : noRawIdColumn db) : noRawIdColumn (updateSessionRow db h f) := by
  intro r hr
  rcases mem_updateFirst hr with hm | ⟨r₀, hr₀, rfl⟩
  · exact h0 r hm
  · exact hf r₀ (h0 r₀ hr₀)

/-- A state whose entropy stream supplies the session id, session salt,
refresh token and refresh salt for one `create_session` call. -/
def stC1 : SessState := { rng := ⟨["SID0", "SALT0", "RT0", "RSALT0"]⟩ }

/-- C1 counterexample: the `create` audit event emitted by
`create_session` durably inserts a `session_audit_log` row whose
`session_id` column holds the raw (non-empty) session id of the session
just created — a durable write that persists a raw session identifier,
contradicting the claim for audit-event writes. -/
theorem C1_counterexample :
    ((create_session Cfix clockFix 7 "10.0.0.1" "A" stC1).2.db.audit.map
      fun r => rowGet r "session_id") = ["SID0"] ∧
    (create_session Cfix clockFix 7 "10.0.0.1" "A" stC1).1.toOption.map
      Session.session_id = some "SID0" ∧
    ("SID0" : String) ≠ "" := by decide

/-- C1 amended: every durable write to the `sessions` table stores only
`session_id_hash` (computed from the raw id and the stored per-session
salt), never a raw `session_id` column: the row `create_session` inserts
has no `session_id` column and carries `session_id_hash = H(session_id,
session_salt)` with its salt, and `save_session`, `destroy_session` and
`revoke_all_user_sessions` keep the table free of raw-id columns (their
sessions-table updates only rewrite existing non-id columns, located by
`session_id_hash`).  Audit-event writes, however, persist the raw
`session_id` in `session_audit_log` (see the counterexample). -/
theorem C1_no_raw_id_in_sessions_table (C : Crypto) (clock : Clock) (uid : Int)
    (ip ua : String) (st : SessState) (s : Session) (st' : SessState)
    (s2 : Session) (id2 : String) (uid2 : Int) (reason : String)
    (h0 : noRawIdColumn st.db)
    (hok : create_session C clock uid ip ua st = (Except.ok s, st')) :
    noRawIdColumn st'.db ∧
    st'.db.sessions.getLastD [] ≠ [] ∧
    rowGet (st'.db.sessions.getLastD []) "session_id_hash" =
      C.H s.session_id s.session_salt ∧
    rowGet (st'.db.sessions.getLastD []) "session_salt" = s.session_salt ∧
    rowHas (st'.db.sessions.getLastD []) "session_id" = false ∧
    noRawIdColumn (save_session C clock s2 st).db ∧
    noRawIdColumn (destroy_session clock id2 st).db ∧
    noRawIdColumn (revoke_all_user_sessions clock uid2 reason st).db := by
  rcases hr1 : st.rng.next with ⟨sid, g1⟩
  rcases hr2 : g1.next with ⟨salt, g2⟩
  rcases hr3 : g2.next with ⟨rtok, g3⟩
  rcases hr4 : g3.next with ⟨rsalt, g4⟩
  by_cases hl : (is_rate_limited clock.tnow ip st.rate).1 = true
  · exfalso
    simp only [create_session, hr1, hr2, hr3, hr4] at hok
    rw [if_pos hl] at hok
    simp at hok
  · simp only [create_session, hr1, hr2, hr3, hr4] at hok
    rw [if_neg hl] at hok
    injection hok with hfst hsnd
    injection hfst with hfst
    have hsid : s.session_id = sid := by rw [← hfst]
    have hsalt : s.session_salt = salt := by rw [← hfst]
    have hsess : st'.db.sessions = st.db.sessions ++
        [[("session_id_hash", C.H sid salt),
          ("session_salt", salt),
          ("user_id", toString uid),
          ("data_encrypted", C.Enc "\x7b\x7d"),
          ("created_at", clock.nowStr),
          ("updated_at", clock.nowStr),
          ("expires_at", clock.plus1h),
          ("ip_address", ip),
          ("user_agent", ua),
          ("created_ip", ip),
          ("last_activity", clock.nowStr),
          ("last_activity_ip", ip),
          ("refresh_token_hash", C.H rtok rsalt),
          ("refresh_expires_at", clock.plus30d),
          ("is_valid", "1")]] := by
      rw [← hsnd]
      rfl
    have hlast : st'.db.sessions.getLastD [] =
        [("session_id_hash", C.H sid salt),
         ("session_salt", salt),
         ("user_id", toString uid),
         ("data_encrypted", C.Enc "\x7b\x7d"),
         ("created_at", clock.nowStr),
         ("updated_at", clock.nowStr),
         ("expires_at", clock.plus1h),
         ("ip_address", ip),
         ("user_agent", ua),
         ("created_ip", ip),
         ("last_activity", clock.nowStr),
         ("last_activity_ip", ip),
         ("refresh_token_hash", C.H rtok rsalt),
         ("refresh_expires_at", clock.plus30d),
         ("is_valid", "1")] := by
      rw [hsess]
      exact List.getLastD_concat _ _ _
    refine ⟨?_, ?_, ?_, ?_, ?_, ?_, ?_, ?_⟩
    · intro r hr
      rw [hsess] at hr
      rcases List.mem_append.1 hr with hm | hm
      · exact h0 r hm
      · rw [List.mem_singleton] at hm
        subst hm
        simp [rowHas_eq_any]
    · rw [hlast]
      simp
    · rw [hlast, hsid, hsalt]
      rfl
    · rw [hlast, hsalt]
      rfl
    · rw [hlast]
      simp [rowHas_eq_any]
    · unfold save_session
      dsimp only
      split
      · exact h0
      · refine noRawIdColumn_update st.db _ _ ?_ h0
        intro r hr
        rw [rowHas_rowSet_ne _ "is_valid" _ "session_id" (by decide),
          rowHas_rowSet_ne _ "last_activity" _ "session_id" (by decide),
          rowHas_rowSet_ne _ "updated_at" _ "session_id" (by decide),
          rowHas_rowSet_ne _ "data_encrypted" _ "session_id" (by decide),
          rowHas_rowSet_ne _ "user_id" _ "session_id" (by decide)]
        exact hr
    · unfold destroy_session
      dsimp only
      split
      · exact h0
      · refine noRawIdColumn_update st.db _ _ ?_ h0
        intro r hr
        rw [rowHas_rowSet_ne _ "is_valid" _ "session_id" (by decide)]
        exact hr
    · intro r hr
      simp only [revoke_all_user_sessions, log_session_event, insertAuditRow] at hr
      rw [List.mem_map] at hr
      obtain ⟨r₀, hr₀, rfl⟩ := hr
      by_cases hu : (rowGet r₀ "user_id" == toString uid2) = true
      · rw [if_pos hu, rowHas_rowSet_ne _ "is_valid" _ "session_id" (by decide)]
        exact h0 r₀ hr₀
      · rw [if_neg hu]
        exact h0 r₀ hr₀

/-- Witness for C1 (amended): the concrete `create_session` run of the
counterexample, checked against the sessions-table obligations. -/
theorem C1_no_raw_id_in_sessions_table_witness :
    noRawIdColumn (create_session Cfix clockFix 7 "10.0.0.1" "A" stC1).2.db ∧
    rowHas ((create_session Cfix clockFix 7 "10.0.0.1" "A" stC1).2.db.sessions.getLastD [])
      "session_id" = false := by
  have h := C1_no_raw_id_in_sessions_table Cfix clockFix 7 "10.0.0.1" "A" stC1
    ((create_session Cfix clockFix 7 "10.0.0.1" "A" stC1).1.toOption.getD {})
    (create_session Cfix clockFix 7 "10.0.0.1" "A" stC1).2
    ({} : Session) "X" 9 "r"
    (by intro r hr; simp [stC1] at hr)
    (by rfl)
  exact ⟨h.1, h.2.2.2.2.1⟩

/-! ## C3 -/

/-- The error message of a refresh/create outcome, if it failed. -/
def errMsg : Except String Session → Option String
  | .error e => some e
  | .ok _ => none

/-- A live session whose stored refresh-token hash happens to equal the
digest the refresh path recomputes (under `Cfix`) with the next queued
fresh salt. -/
def sRef : Session :=
  { session_id := "S"
    ip_address := "1.1.1.1"
    user_agent := "A"
    expires_at := "2030-01-01 00:00:00"
    refresh_expires_at := "2030-01-01 00:00:00"
    refresh_token_hash := "RT:RS1"
    «exists» := true
    user_id := 7 }

/-- State for the C3 counterexample: `sRef` cached, fresh salt `"RS1"`
queued, and the caller's IP already at 5 failed attempts inside an open
window. -/
def stRef : SessState :=
  { cache := [("S", sRef)]
    rng := ⟨["RS1"]⟩
    rate := [("1.1.1.1", ⟨5, 1000000⟩)] }

/-- Like `stRef` but with a non-matching stored refresh-token hash and no
rate limiting. -/
def stRef2 : SessState :=
  { cache := [("S", { sRef with refresh_token_hash := "OTHER" })]
    rng := ⟨["RS1"]⟩ }

/-- C3 counterexample: a state in which none of the claim's three failure
conditions holds — the session loads with `exists = true`, the presented
refresh token's fresh-salt hash equals the stored hash, and the refresh
token is not expired — yet `refresh_session` still fails, because the
caller's IP is rate-limited when `create_session` mints the new session. -/
theorem C3_counterexample :
    (load_session Cfix clockFix "S" "1.1.1.1" "A" stRef).1.«exists» = true ∧
    Cfix.H "RT" (((load_session Cfix clockFix "S" "1.1.1.1" "A" stRef).2.rng.next).1) =
      (load_session Cfix clockFix "S" "1.1.1.1" "A" stRef).1.refresh_token_hash ∧
    strLt (load_session Cfix clockFix "S" "1.1.1.1" "A" stRef).1.refresh_expires_at
      clockFix.nowStr = false ∧
    errMsg (refresh_session Cfix clockFix "S" "RT" "1.1.1.1" "A" stRef).1 =
      some "Too many login attempts. Try again later." := by decide

/-- An un-throttled `create_session` call always succeeds. -/
lemma create_session_ok (C : Crypto) (clock : Clock) (uid : Int) (ip ua : String)
    (st : SessState) (hl : ¬ (is_rate_limited clock.tnow ip st.rate).1 = true) :
    ∃ ns st3, create_session C clock uid ip ua st = (Except.ok ns, st3) := by
  rcases h1 : st.rng.next with ⟨sid, g1⟩
  rcases h2 : g1.next with ⟨salt, g2⟩
  rcases h3 : g2.next with ⟨rtok, g3⟩
  rcases h4 : g3.next with ⟨rsalt, g4⟩
  simp only [create_session, h1, h2, h3, h4]
  rw [if_neg hl]
  exact ⟨_, _, rfl⟩

/-- A throttled `create_session` call throws the rate-limit error. -/
lemma create_session_limited (C : Crypto) (clock : Clock) (uid : Int) (ip ua : String)
    (st : SessState) (hl : (is_rate_limited clock.tnow ip st.rate).1 = true) :
    create_session C clock uid ip ua st =
      (Except.error "Too many login attempts. Try again later.",
       { st with rate := (is_rate_limited clock.tnow ip st.rate).2 }) := by
  simp only [create_session]
  rw [if_pos hl]

/-- C3 amended: `refresh_session` fails exactly when, in evaluation
order: the loaded session is absent (error "Invalid session", recording
a failed attempt for the caller's IP); or the presented refresh token
hashed with the freshly drawn salt differs from the stored
`refresh_token_hash` (error "Invalid refresh token", recording a failed
attempt); or the refresh token is past `refresh_expires_at` (error
"Refresh token expired"); or — the failure mode the original claim
omits — the caller's IP is rate-limited when the new session is minted,
in which case `create_session`'s throttling error propagates.  When none
of these four hold it returns exactly what `create_session` mints. -/
theorem C3_refresh_error_modes (C : Crypto) (clock : Clock)
    (sid rt ip ua : String) (st : SessState) :
    (refresh_session C clock sid rt ip ua st).1 =
      (if (load_session C clock sid ip ua st).1.«exists» = false then
        Except.error "Invalid session"
       else if C.H rt (((load_session C clock sid ip ua st).2.rng.next).1) ≠
           (load_session C clock sid ip ua st).1.refresh_token_hash then
        Except.error "Invalid refresh token"
       else if strLt (load_session C clock sid ip ua st).1.refresh_expires_at
           clock.nowStr then
        Except.error "Refresh token expired"
       else if (is_rate_limited clock.tnow ip st.rate).1 then
        Except.error "Too many login attempts. Try again later."
       else
        (create_session C clock (load_session C clock sid ip ua st).1.user_id ip ua
          { (load_session C clock sid ip ua st).2 with
            rng := ((load_session C clock sid ip ua st).2.rng.next).2 }).1) ∧
    ((∃ e, (refresh_session C clock sid rt ip ua st).1 = Except.error e) ↔
      ((load_session C clock sid ip ua st).1.«exists» = false ∨
       C.H rt (((load_session C clock sid ip ua st).2.rng.next).1) ≠
         (load_session C clock sid ip ua st).1.refresh_token_hash ∨
       strLt (load_session C clock sid ip ua st).1.refresh_expires_at clock.nowStr =
         true ∨
       (is_rate_limited clock.tnow ip st.rate).1 = true)) ∧
    ((load_session C clock sid ip ua st).1.«exists» = false →
      (refresh_session C clock sid rt ip ua st).2.rate =
        record_failed_attempt clock.tnow ip st.rate) ∧
    ((load_session C clock sid ip ua st).1.«exists» = true →
      C.H rt (((load_session C clock sid ip ua st).2.rng.next).1) ≠
        (load_session C clock sid ip ua st).1.refresh_token_hash →
      (refresh_session C clock sid rt ip ua st).2.rate =
        record_failed_attempt clock.tnow ip st.rate) := by
  have hrate1 : (load_session C clock sid ip ua st).2.rate = st.rate :=
    load_session_rate C clock sid ip ua st
  unfold refresh_session
  rcases hL : load_session C clock sid ip ua st with ⟨s, st1⟩
  rw [hL] at hrate1
  replace hrate1 : st1.rate = st.rate := hrate1
  dsimp only
  rcases hrng : st1.rng.next with ⟨salt, g1⟩
  dsimp only
  by_cases h1 : s.«exists» = false
  · rw [if_pos h1, if_pos h1]
    refine ⟨rfl, ?_, fun _ => by rw [hrate1], fun hx _ => by rw [h1] at hx; cases hx⟩
    constructor
    · intro _
      exact Or.inl h1
    · intro _
      exact ⟨_, rfl⟩
  · rw [if_neg h1, if_neg h1]
    by_cases h2 : C.H rt salt ≠ s.refresh_token_hash
    · rw [if_pos h2, if_pos h2]
      refine ⟨rfl, ?_, fun hx => absurd hx h1, fun _ _ => by rw [hrate1]⟩
      constructor
      · intro _
        exact Or.inr (Or.inl h2)
      · intro _
        exact ⟨_, rfl⟩
    · rw [if_neg h2, if_neg h2]
      by_cases h3 : strLt s.refresh_expires_at clock.nowStr = true
      · rw [if_pos h3, if_pos h3]
        refine ⟨rfl, ?_, fun hx => absurd hx h1, fun _ hx => absurd hx h2⟩
        constructor
        · intro _
          exact Or.inr (Or.inr (Or.inl h3))
        · intro _
          exact ⟨_, rfl⟩
      · rw [if_neg h3, if_neg h3]
        by_cases h4 : (is_rate_limited clock.tnow ip st.rate).1 = true
        · rw [if_pos h4]
          have hlim := create_session_limited C clock s.user_id ip ua
            { st1 with rng := g1 } (by dsimp only; rw [hrate1]; exact h4)
          rw [hlim]
          refine ⟨rfl, ?_, fun hx => absurd hx h1, fun _ hx => absurd hx h2⟩
          constructor
          · intro _
            exact Or.inr (Or.inr (Or.inr h4))
          · intro _
            exact ⟨_, rfl⟩
        · rw [if_neg h4]
          obtain ⟨ns, st3, hok⟩ := create_session_ok C clock s.user_id ip ua
            { st1 with rng := g1 } (by dsimp only; rw [hrate1]; exact h4)
          rw [hok]
          refine ⟨rfl, ?_, fun hx => absurd hx h1, fun _ hx => absurd hx h2⟩
          constructor
          · rintro ⟨e, he⟩
            cases he
          · rintro (hx | hx | hx | hx)
            · exact absurd hx h1
            · exact absurd hx h2
            · exact absurd hx h3
            · exact absurd hx h4

/-- Witness for C3 (amended): the failed-attempt recording of the two
rate-recording error modes, applied at concrete states: an absent
session, and a cached session with a non-matching stored hash. -/
theorem C3_refresh_error_modes_witness :
    (refresh_session Cfix clockFix "S" "RT" "1.1.1.1" "A" {}).2.rate =
      record_failed_attempt clockFix.tnow "1.1.1.1" ({} : SessState).rate ∧
    (refresh_session Cfix clockFix "S" "RT" "1.1.1.1" "A" stRef2).2.rate =
      record_failed_attempt clockFix.tnow "1.1.1.1" stRef2.rate := by
  have h1 := C3_refresh_error_modes Cfix clockFix "S" "RT" "1.1.1.1" "A" {}
  have h2 := C3_refresh_error_modes Cfix clockFix "S" "RT" "1.1.1.1" "A" stRef2
  exact ⟨h1.2.2.1 (by decide), h2.2.2.2 (by decide) (by decide)⟩

end Six
